import Mathlib

/-!
Verification of the game-server-management core against its specification.

This file gives a shallow embedding of the relevant parts of the repository:

* `libs/gsm-instance/src/update.rs`  — build-id extraction and comparison
* `libs/gsm-instance/src/instance.rs` — `Instance::pid`, `Instance::stop`,
  `Instance::update_available`
* `libs/gsm-instance/src/process.rs` — fuzzy process discovery and interrupts
* `libs/gsm-instance/src/launcher.rs` — compatibility-layer resolution
* `libs/gsm-instance/src/startup.rs` — daemonized start and log-file creation
* `libs/gsm-monitor/src/rules.rs` and `monitor.rs` — ranked log rules
* `libs/gsm-cron/src/lib.rs` — cron-expression normalization

Pure functions are translated directly; effectful code is modelled by explicit
state (an association-list filesystem, a process table, read results passed as
parameters).  A Rust `panic!` is a distinct outcome constructor, kept separate
from typed errors.
-/

set_option linter.unusedVariables false
set_option maxRecDepth 100000

/-- Error type of the gsm-instance crate (`errors.rs`).  Foreign payloads
(`io::Error`, `ParseIntError`, `nix::Errno`) are dropped; `SignalError` is
referenced by `instance.rs` although `errors.rs` omits it. -/
inductive InstanceError where
  | SteamCmdError (msg : String)
  | ProcessError (msg : String)
  | ConfigError (msg : String)
  | CommandExecutionError (msg : String)
  | IoError
  | ParseError
  | SignalError
  | Unknown (msg : String)
  deriving DecidableEq, Repr

/-- Result of running a piece of Rust code that may return a value, return a
typed error, or abort the whole process via `panic!`. -/
inductive Outcome (α : Type) where
  | ok (a : α)
  | err (e : InstanceError)
  | panicked (msg : String)
  deriving DecidableEq, Repr

/-! ## Update oracle (`update.rs`) -/

/-- `UpdateInfo` from `update.rs`: the two raw build-id tokens. -/
structure UpdateInfo where
  current_build_id : String
  latest_build_id : String
  deriving DecidableEq, Repr

/-- `UpdateInfo::update_available`: plain string inequality of the tokens. -/
def UpdateInfo.update_available (u : UpdateInfo) : Bool :=
  u.current_build_id != u.latest_build_id

/-- Try to match the regex `"buildid"\s+"(\d+)"` at the head of `cs`,
returning the captured digit run.  The whitespace run and the digit run are
maximal; because the next pattern character is `"` (neither whitespace nor a
digit), greedy matching with backtracking accepts exactly these runs. -/
def matchBuildIdAt (cs : List Char) : Option (List Char) :=
  let lit : List Char := ['"', 'b', 'u', 'i', 'l', 'd', 'i', 'd', '"']
  if lit.isPrefixOf cs then
    let rest := cs.drop lit.length
    let ws := rest.takeWhile (fun c => c.isWhitespace)
    let rest2 := rest.dropWhile (fun c => c.isWhitespace)
    if ws.isEmpty then none
    else
      match rest2 with
      | '"' :: rest3 =>
        let digits := rest3.takeWhile (fun c => c.isDigit)
        let rest4 := rest3.dropWhile (fun c => c.isDigit)
        if digits.isEmpty then none
        else
          match rest4 with
          | '"' :: _ => some digits
          | _ => none
      | _ => none
  else none

/-- Leftmost match of the build-id pattern: try each start position from the
left, as the regex engine does. -/
def findBuildId : List Char → Option (List Char)
  | [] => none
  | c :: cs =>
    match matchBuildIdAt (c :: cs) with
    | some d => some d
    | none => findBuildId cs

/-- `extract_build_id_from_manifest`: `none` models the `panic!` branch taken
when the pattern does not occur in the text. -/
def extract_build_id_from_manifest (manifest : String) : Option String :=
  (findBuildId manifest.data).map fun cs => String.mk cs

/-- `extract_build_id_from_app_info`: same pattern as the manifest extractor. -/
def extract_build_id_from_app_info (app_info : String) : Option String :=
  (findBuildId app_info.data).map fun cs => String.mk cs

/-- `UpdateInfo::new`, with the two `fs::read_to_string` results passed in as
`Except` values (`.error e` models an unreadable file).  Read errors become
`CommandExecutionError`; a missing build-id key panics. -/
def UpdateInfo.new (manifestRead appinfoRead : Except String String) :
    Outcome UpdateInfo :=
  match manifestRead with
  | .error e => .err (.CommandExecutionError e)
  | .ok manifest_data =>
    match extract_build_id_from_manifest manifest_data with
    | none => .panicked ("Failed to extract buildid from manifest:\n" ++ manifest_data)
    | some current_build_id =>
      match appinfoRead with
      | .error e => .err (.CommandExecutionError e)
      | .ok appinfo_data =>
        match extract_build_id_from_app_info appinfo_data with
        | none => .panicked ("Failed to extract buildid from appinfo:\n" ++ appinfo_data)
        | some latest_build_id =>
          .ok ⟨current_build_id, latest_build_id⟩

/-- `update_is_available`: builds the `UpdateInfo` and compares. -/
def update_is_available (manifestRead appinfoRead : Except String String) :
    Outcome Bool :=
  match UpdateInfo.new manifestRead appinfoRead with
  | .ok u => .ok u.update_available
  | .err e => .err e
  | .panicked m => .panicked m

/-- `Instance::update_available`: `update_is_available(...).unwrap_or(false)` —
a typed error collapses to `false`; a panic still aborts. -/
def Instance.update_available (manifestRead appinfoRead : Except String String) :
    Outcome Bool :=
  match update_is_available manifestRead appinfoRead with
  | .ok b => .ok b
  | .err _ => .ok false
  | .panicked m => .panicked m

/-! ## Cron normalization (`gsm-cron/src/lib.rs`) -/

/-- Split a character list into maximal runs of non-whitespace characters,
the semantics of Rust's `str::split_whitespace` (restricted to the ASCII
whitespace recognized by `Char.isWhitespace`; cron expressions are ASCII). -/
def wordsAux : List Char → List Char → List (List Char)
  | [], acc => if acc.isEmpty then [] else [acc.reverse]
  | c :: cs, acc =>
    if c.isWhitespace then
      if acc.isEmpty then wordsAux cs [] else acc.reverse :: wordsAux cs []
    else wordsAux cs (c :: acc)

/-- The whitespace-separated fields of a string. -/
def splitWhitespaceFields (s : String) : List String :=
  (wordsAux s.data []).map fun cs => String.mk cs

/-- `schedule.split_whitespace().count()` from `register_job`. -/
def fieldCount (s : String) : Nat :=
  (splitWhitespaceFields s).length

/-- The schedule normalization performed by `register_job`: a five-field
expression gains a leading `"0 "` seconds field (`format!("0 {}", schedule)`);
anything else is passed through unmodified. -/
def register_job_schedule (schedule : String) : String :=
  if fieldCount schedule = 5 then "0 " ++ schedule else schedule

/-! ## Log rule engine (`gsm-monitor/src/rules.rs`, `monitor.rs`) -/

/-- A log rule (`rules.rs`).  The side-effecting `Action` closure is
represented by an opaque identifier `actionId`; "rule R's action runs" is
"R appears in the list returned by `Monitor.process_rules`". -/
structure LogRule where
  matcher : String → Bool
  actionId : Nat
  ranking : Int
  stop : Bool

/-- `DEFAULT_STOP_INT` from `rules.rs`. -/
def DEFAULT_STOP_INT : Int := 99999

/-- `default_ranking`: the ranking given to a rule registered without an
explicit one (`current_count as i32 - DEFAULT_STOP_INT`; counts stay far
below `i32::MAX`, so plain integer subtraction is exact). -/
def default_ranking (current_count : Nat) : Int :=
  (current_count : Int) - DEFAULT_STOP_INT

/-- `LogRule::default()`: matches every line, logs it, ranking 99999,
stop flag set. -/
def LogRule.defaultRule : LogRule :=
  { matcher := fun _ => true, actionId := 0, ranking := DEFAULT_STOP_INT, stop := true }

namespace LogRules

/-- `LogRules::add_rule`: append a rule, giving it `default_ranking` of the
current count when no explicit ranking is supplied. -/
def add_rule (rules : List LogRule) (matcher : String → Bool) (actionId : Nat)
    (stop : Bool) (ranking : Option Int) : List LogRule :=
  rules ++ [{ matcher := matcher, actionId := actionId,
              ranking := ranking.getD (default_ranking rules.length), stop := stop }]

/-- Evaluation order: ascending ranking. -/
def ruleLE (a b : LogRule) : Prop := a.ranking ≤ b.ranking

instance : DecidableRel ruleLE := fun a b => inferInstanceAs (Decidable (a.ranking ≤ b.ranking))

instance : IsTotal LogRule ruleLE := ⟨fun a b => Int.le_total a.ranking b.ranking⟩

instance : IsTrans LogRule ruleLE := ⟨fun _ _ _ hab hbc => le_trans hab hbc⟩

/-- `LogRules::get_rules`: a snapshot of the rules sorted ascending by
ranking.  Rust's `sort_by_key` is a stable sort; `List.insertionSort` is the
stable sort by the same key, and stable sorting is extensionally unique. -/
def get_rules (rules : List LogRule) : List LogRule :=
  List.insertionSort ruleLE rules

end LogRules

/-- The `scan` combinator in `Monitor::process_rules`: collect matching rules
until (and including) the first one whose stop flag is set. -/
def scanUntilStop : List LogRule → List LogRule
  | [] => []
  | r :: rs => if r.stop then [r] else r :: scanUntilStop rs

/-- `Monitor::process_rules`: sort the registered rules by ranking, keep the
ones whose matcher accepts the line, cut at the first stop rule, and run the
kept actions in order.  Returns the rules whose action is invoked, in
invocation order. -/
def Monitor.process_rules (rules : List LogRule) (line : String) : List LogRule :=
  scanUntilStop ((LogRules.get_rules rules).filter fun r => r.matcher line)

/-- One `add_rule` registration request (arguments of `LogRules::add_rule`). -/
structure RuleReq where
  matcher : String → Bool
  actionId : Nat
  stop : Bool
  ranking : Option Int

/-- Register a sequence of rules, in order, on an initially empty rule set. -/
def registerAll (reqs : List RuleReq) : List LogRule :=
  reqs.foldl (fun rules req => LogRules.add_rule rules req.matcher req.actionId req.stop req.ranking) []

/-! ## Process discovery and stop (`process.rs`, `shutdown.rs`, `instance.rs`) -/

/-- One entry of the OS process table. -/
structure Proc where
  pid : Int
  name : String
  deriving DecidableEq, Repr

/-- Rust `to_ascii_lowercase` (`Char.toLower` lowercases exactly ASCII). -/
def toLowerStr (s : String) : String :=
  String.mk (s.data.map Char.toLower)

/-- The 0.75 confidence threshold of `find_processes`; 0.75 is exactly the
rational 3/4 (and is exactly representable in `f64`).  Written in constructor
form so that it evaluates by kernel reduction. -/
def confidenceThreshold : ℚ := ⟨3, 4, by norm_num, by norm_num⟩

/-- `ServerProcess::find_processes`, parameterized by the similarity function
`sim` standing for `strsim::jaro_winkler` (an external crate computing over
`f64`; the threshold logic is what the code under `src/` contributes).  Both
names are ASCII-lowercased, scores strictly above 0.75 are kept, and the
survivors are stably sorted by descending score (`sort_by` with the reversed
comparison). -/
def find_processes (sim : String → String → ℚ) (procs : List Proc)
    (executable_name : String) : List Proc :=
  let target := toLowerStr executable_name
  let scored := procs.map fun p => (p, sim target (toLowerStr p.name))
  let kept := scored.filter fun x => confidenceThreshold < x.2
  (List.insertionSort (fun x y : Proc × ℚ => y.2 ≤ x.2) kept).map Prod.fst

/-- `ServerProcess::send_interrupt`: panic when no process survives the
similarity filter, otherwise send SIGINT to each survivor (delivery via
`send_interrupt_to_pid`, which logs but never fails).  Returns the pids
interrupted, in the order the signals are sent. -/
def send_interrupt (sim : String → String → ℚ) (procs : List Proc)
    (executable_name : String) : Outcome (List Int) :=
  let found := find_processes sim procs executable_name
  if found.isEmpty then
    .panicked ("Failed to find process with executable name: " ++ executable_name)
  else
    .ok (found.map Proc.pid)

/-- `blocking_shutdown`: send the interrupts, then poll every 5 seconds until
no matching process remains.  The real-time polling loop has no observable
result beyond termination and is elided; the observable effect is the
interrupt delivery. -/
def blocking_shutdown (sim : String → String → ℚ) (procs : List Proc)
    (executable : String) : Outcome (List Int) :=
  send_interrupt sim procs executable

/-- Split a character list at every separator occurrence (empties kept). -/
def splitCharAux (sep : Char) : List Char → List Char → List (List Char)
  | [], acc => [acc.reverse]
  | c :: cs, acc =>
    if c = sep then acc.reverse :: splitCharAux sep cs []
    else splitCharAux sep cs (c :: acc)

/-- `Path::file_name` (on Unix): the final normal component of the path;
`none` for an empty path, a root path, or a path ending in `..`.  A lone `.`
component is skipped. -/
def path_file_name (p : String) : Option String :=
  let comps := (splitCharAux '/' p.data []).filter fun c => !c.isEmpty && c ≠ ['.']
  match comps.getLast? with
  | none => none
  | some c => if c = ['.', '.'] then none else some (String.mk c)

/-- Rust `str::trim`: drop whitespace from both ends (restricted to the
ASCII whitespace recognized by `Char.isWhitespace`). -/
def strTrim (s : String) : String :=
  String.mk (((s.data.dropWhile fun c => c.isWhitespace).reverse.dropWhile
    fun c => c.isWhitespace).reverse)

/-- The digits of an optionally signed decimal integer, or `none` when the
digit run is empty or contains a non-digit. -/
def digitsToNat (ds : List Char) : Option Nat :=
  if ds.isEmpty then none
  else if ds.all Char.isDigit then
    some (ds.foldl (fun n c => 10 * n + (c.toNat - '0'.toNat)) 0)
  else none

/-- Rust `i32::from_str`: optional sign, one or more ASCII digits, and a
range check against `i32`. -/
def parse_i32 (s : String) : Option Int :=
  let signed : Option Int :=
    match s.data with
    | '+' :: ds => (digitsToNat ds).map Int.ofNat
    | '-' :: ds => (digitsToNat ds).map fun n => -(Int.ofNat n)
    | ds => (digitsToNat ds).map Int.ofNat
  match signed with
  | some n => if -(2 ^ 31) ≤ n ∧ n < 2 ^ 31 then some n else none
  | none => none

/-- The on-disk and OS state consulted by `Instance::stop`:
the contents of `<workingDir>/instance.pid` (`none` = file absent) and the
process table. -/
structure SysState where
  pidFileContents : Option String
  procs : List Proc

/-- `Instance::pid`: read the PID record, trim it, parse it as `i32`.
A missing file is `Unknown`, unparseable contents are a `ParseError`. -/
def Instance.pid (s : SysState) : Except InstanceError Int :=
  match s.pidFileContents with
  | some contents =>
    match parse_i32 (strTrim contents) with
    | some n => .ok n
    | none => .error .ParseError
  | none => .error (.Unknown "Failed to find pid")

/-- The `Err(_)` arm of `Instance::stop`: take the basename of the configured
command (`file_name().unwrap()` panics on a basename-less command) and run
`blocking_shutdown` over it. -/
def Instance.stopFallback (sim : String → String → ℚ) (command : String)
    (procs : List Proc) : Outcome (List Int × Bool) :=
  match path_file_name command with
  | none => .panicked "called Option::unwrap on a None value"
  | some file_name =>
    match blocking_shutdown sim procs file_name with
    | .ok pids => .ok (pids, false)
    | .err e => .err e
    | .panicked m => .panicked m

/-- `Instance::stop`.  On a successful PID lookup: one `signal::kill(pid,
SIGINT)` (modelled as succeeding exactly when the pid is in the process
table, the `ESRCH` case) followed by deletion of the PID record.  On any
failed lookup (absent record and parse failure alike — the code matches
`Err(_)`): `Instance.stopFallback`.  Result: the interrupted pids and whether
the PID record was deleted. -/
def Instance.stop (sim : String → String → ℚ) (command : String)
    (s : SysState) : Outcome (List Int × Bool) :=
  match Instance.pid s with
  | .ok pid =>
    if s.procs.any (fun p => p.pid == pid) then .ok ([pid], true)
    else .err .SignalError
  | .error _ => Instance.stopFallback sim command s.procs

/-! ## Compatibility resolver (`launcher.rs`) -/

/-- The filesystem/PATH facts the resolver probes: `whichExe` models the
`which` crate (PATH lookup), `globResults` the `glob` crate (which yields
matches in alphabetical order), `isFile` the `path.is_file()` test. -/
structure Env where
  whichExe : String → Option String
  globResults : String → List String
  isFile : String → Bool

/-- The `WindowsCompat` enum from `launcher.rs`. -/
inductive WindowsCompat where
  | Proton (path : String)
  | Wine (path : String)
  | UmuProton (path : String)
  | NoCompat
  deriving DecidableEq, Repr

/-- `find_umu_launcher`: `umu-run` on the PATH, else `umu-launcher`. -/
def find_umu_launcher (e : Env) : Option String :=
  match e.whichExe "umu-run" with
  | some p => some p
  | none => e.whichExe "umu-launcher"

/-- The glob patterns probed by `find_proton`, in order. -/
def glob_patterns : List String :=
  ["/home/steam/.steam/root/compatibilitytools.d/*Proton*/proton",
   "/home/steam/.steam/steam/compatibilitytools.d/*Proton*/proton",
   "~/.local/share/Steam/compatibilitytools.d/*Proton*/proton",
   "~/.steam/root/compatibilitytools.d/*Proton*/proton",
   "~/.steam/steam/compatibilitytools.d/*Proton*/proton"]

/-- The fixed fallback paths probed by `find_proton` after the globs. -/
def proton_fallback_paths : List String :=
  ["/usr/bin/proton",
   "~/.local/share/Steam/steamapps/common/Proton/proton",
   "/usr/local/bin/proton"]

/-- `find_proton`: the first file yielded by the first glob pattern with a
file match (the nested `for` loops return the first hit), then the fixed
fallback paths through PATH lookup, then a typed error. -/
def find_proton (e : Env) : Except String String :=
  match glob_patterns.findSome? (fun pat => (e.globResults pat).find? fun p => e.isFile p) with
  | some p => .ok p
  | none =>
    match proton_fallback_paths.findSome? (fun p => e.whichExe p) with
    | some p => .ok p
    | none => .error "No Proton installation found."

/-- `find_wine`: `wine64` on the PATH before `wine`. -/
def find_wine (e : Env) : Except String String :=
  match e.whichExe "wine64" with
  | some p => .ok p
  | none =>
    match e.whichExe "wine" with
    | some p => .ok p
    | none => .error "Neither wine64 nor wine was found in the PATH."

/-- `find_windows_compatibility`: UMU launcher, else Proton, else Wine,
else none. -/
def find_windows_compatibility (e : Env) : WindowsCompat :=
  match find_umu_launcher e with
  | some p => .UmuProton p
  | none =>
    match find_proton e with
    | .ok p => .Proton p
    | .error _ =>
      match find_wine e with
      | .ok p => .Wine p
      | .error _ => .NoCompat

/-! ## Daemonized start (`startup.rs`) -/

/-- A flat filesystem: newest write first; `getFile` returns the newest. -/
abbrev Fs := List (String × String)

/-- `File::create`: create or truncate. -/
def setFile (fs : Fs) (path content : String) : Fs :=
  (path, content) :: fs

/-- Contents of a file, `none` when absent. -/
def getFile (fs : Fs) (path : String) : Option String :=
  (fs.find? fun kv => kv.1 == path).map Prod.snd

/-- `InstanceConfig::pid_file`: `<workingDir>/instance.pid`. -/
def pid_file (working_dir : String) : String :=
  working_dir ++ "/instance.pid"

/-- `create_log_files`: truncating creates of `logs/server.log` and
`logs/server.err` under the working directory. -/
def create_log_files (fs : Fs) (working_dir : String) : Fs :=
  setFile (setFile fs (working_dir ++ "/logs/server.log") "")
    (working_dir ++ "/logs/server.err") ""

/-- The filesystem effect of `launch_server`: `File::create(config.stdout())`
for the stdout/stderr redirection. -/
def launch_server_fs (fs : Fs) (working_dir : String) : Fs :=
  setFile fs (working_dir ++ "/logs/server.log") ""

/-- The filesystem effect of a fully successful `start_daemonized`: the log
files are created, the command is spawned and daemonized — and nothing else
is written.  In particular no write to the PID record appears anywhere in
`startup.rs` (or the rest of the crate). -/
def start_daemonized (fs : Fs) (working_dir : String) : Fs :=
  launch_server_fs (create_log_files fs working_dir) working_dir

/-! ## Closed form of rule registration, and concrete inputs -/

/-- The rule produced by the `i`-th registration (zero-based): an explicit
ranking is kept, an implicit one becomes `default_ranking i`, since each
earlier registration appended exactly one rule. -/
def mkRule (req : RuleReq) (i : Nat) : LogRule :=
  { matcher := req.matcher, actionId := req.actionId,
    ranking := req.ranking.getD (default_ranking i), stop := req.stop }

/-- A similarity function that scores every pair at zero (below threshold). -/
def simZero : String → String → ℚ := fun _ _ => 0

/-- A similarity function that scores every pair at one (above threshold). -/
def simOne : String → String → ℚ := fun _ _ => 1

/-- A similarity function scoring 1 against the process name `alpha` and 0
against everything else. -/
def simAlpha : String → String → ℚ := fun _ b => if b = "alpha" then 1 else 0

/-- Concrete rule for the ranked-evaluation witness: lowest ranking, no stop. -/
def ruleA : LogRule :=
  { matcher := fun _ => true, actionId := 1, ranking := 1, stop := false }

/-- Concrete rule for the ranked-evaluation witness: middle ranking, stop. -/
def ruleB : LogRule :=
  { matcher := fun _ => true, actionId := 2, ranking := 2, stop := true }

/-- Concrete rule for the ranked-evaluation witness: highest ranking, no stop. -/
def ruleC : LogRule :=
  { matcher := fun _ => true, actionId := 3, ranking := 3, stop := false }

/-- Concrete registration sequence: two implicitly-ranked rules followed by
the default catch-all rule with explicit ranking 99999. -/
def reqsW : List RuleReq :=
  [{ matcher := fun l => l = "WARNING", actionId := 1, stop := true, ranking := none },
   { matcher := fun l => l = "ERROR", actionId := 2, stop := true, ranking := none },
   { matcher := fun _ => true, actionId := 3, stop := true, ranking := some 99999 }]

/-- Path of the alphabetically first of two Proton candidate directories. -/
def protonLess : String :=
  "/home/steam/.steam/root/compatibilitytools.d/GE-Proton8/proton"

/-- Path of the alphabetically last (lexicographically greatest) of two
Proton candidate directories. -/
def protonGreater : String :=
  "/home/steam/.steam/root/compatibilitytools.d/GE-Proton9/proton"

/-- An environment with no launcher or wine binaries on the PATH and two
Proton directories; the glob crate yields its matches in alphabetical
order. -/
def envTwoProtons : Env :=
  { whichExe := fun _ => none,
    globResults := fun pat =>
      if pat = "/home/steam/.steam/root/compatibilitytools.d/*Proton*/proton" then
        [protonLess, protonGreater]
      else [],
    isFile := fun p => p == protonLess || p == protonGreater }

/-- Process table for the threshold witness. -/
def procsAlpha : List Proc := [{ pid := 1, name := "alpha" }, { pid := 2, name := "beta" }]

/-! ## Theorems -/

section Theorems

/-- Splitting after a prepended `"0 "` field yields one extra leading `"0"`
field. -/
theorem wordsAux_zero_space (cs : List Char) :
    wordsAux ('0' :: ' ' :: cs) [] = ['0'] :: wordsAux cs [] := by
  simp [wordsAux]

/-- Prepending `"0 "` increases the whitespace-field count by one. -/
theorem fieldCount_prepend_zero (s : String) :
    fieldCount ("0 " ++ s) = fieldCount s + 1 := by
  have hd : ("0 " ++ s).data = '0' :: ' ' :: s.data := by
    rw [String.data_append]; rfl
  unfold fieldCount splitWhitespaceFields
  rw [hd, wordsAux_zero_space]
  simp

/-- Appending different suffixes to the same string gives different strings. -/
theorem append_ne_of_ne {p a b : String} (h : a ≠ b) : p ++ a ≠ p ++ b := by
  intro hc
  apply h
  apply String.ext
  have hdata := congrArg String.data hc
  rw [String.data_append, String.data_append] at hdata
  exact List.append_cancel_left hdata

/-- C1: `UpdateInfo::update_available` returns true iff the two extracted
build-id strings are not byte-for-byte equal — plain string inequality, not
numeric comparison; `"1000"` vs `"1001"` yields true, `"1000"` vs `"1000"`
yields false. -/
theorem c1_update_available_iff_string_ne :
    (∀ cur lat : String, (UpdateInfo.mk cur lat).update_available = true ↔ cur ≠ lat)
    ∧ (UpdateInfo.mk "1000" "1001").update_available = true
    ∧ (UpdateInfo.mk "1000" "1000").update_available = false := by
  refine ⟨fun cur lat => ?_, by decide, by decide⟩
  simp [UpdateInfo.update_available]

/-- C8: a cron expression with exactly five whitespace-separated fields gets
`"0 "` prepended (yielding a six-field expression) before parsing; any other
field count passes through unmodified.  `"*/5 * * * *"` becomes
`"0 */5 * * * *"` and `"0 */5 * * * *"` is unchanged. -/
theorem c8_cron_normalization :
    (∀ s : String,
      (fieldCount s = 5 →
        register_job_schedule s = "0 " ++ s ∧ fieldCount (register_job_schedule s) = 6)
      ∧ (fieldCount s ≠ 5 → register_job_schedule s = s))
    ∧ register_job_schedule "*/5 * * * *" = "0 */5 * * * *"
    ∧ register_job_schedule "0 */5 * * * *" = "0 */5 * * * *" := by
  refine ⟨fun s => ⟨fun h5 => ?_, fun hne => ?_⟩, by decide, by decide⟩
  · have he : register_job_schedule s = "0 " ++ s := by
      simp [register_job_schedule, h5]
    exact ⟨he, by rw [he, fieldCount_prepend_zero, h5]⟩
  · simp [register_job_schedule, hne]

/-- C8 witness: the five-field case at the concrete expression
`"*/5 * * * *"`. -/
theorem c8_cron_normalization_witness :
    register_job_schedule "*/5 * * * *" = "0 " ++ "*/5 * * * *"
    ∧ fieldCount (register_job_schedule "*/5 * * * *") = 6 :=
  (c8_cron_normalization.1 "*/5 * * * *").1 (by decide)

/-- C9: whenever the update check fails with a typed error (for example an
unreadable manifest or version-info file), `Instance::update_available`
swallows the error and reports `false` instead of propagating it. -/
theorem c9_update_errors_swallowed :
    ∀ (manifestRead appinfoRead : Except String String) (e : InstanceError),
      update_is_available manifestRead appinfoRead = Outcome.err e →
      Instance.update_available manifestRead appinfoRead = Outcome.ok false := by
  intro m a e h
  unfold Instance.update_available
  rw [h]

/-- C9 witness: an unreadable manifest file is reported as "no update". -/
theorem c9_update_errors_swallowed_witness :
    Instance.update_available (Except.error "unreadable") (Except.ok "") = Outcome.ok false :=
  c9_update_errors_swallowed _ _ (InstanceError.CommandExecutionError "unreadable") rfl

/-- C5: contrary to the claim, a fully successful `start_daemonized` leaves
the PID record exactly as it was: no code path in the crate ever writes
`<workingDir>/instance.pid`. -/
theorem c5_start_never_writes_pid_record :
    ∀ (fs : Fs) (working_dir : String),
      getFile (start_daemonized fs working_dir) (pid_file working_dir)
        = getFile fs (pid_file working_dir) := by
  intro fs wd
  have h1 : ((wd ++ "/logs/server.log") == pid_file wd) = false := by
    rw [beq_eq_false_iff_ne]
    exact append_ne_of_ne (by decide)
  have h2 : ((wd ++ "/logs/server.err") == pid_file wd) = false := by
    rw [beq_eq_false_iff_ne]
    exact append_ne_of_ne (by decide)
  simp [start_daemonized, launch_server_fs, create_log_files, setFile, getFile,
    List.find?_cons, h1, h2]

end Theorems

section StopTheorems

/-- C3 counterexample: with no PID record and an empty process table (so no
process clears the similarity threshold), `Instance::stop` panics — it does
not return a typed "not found" error. -/
theorem c3_counterexample_fallback_panics :
    Instance.stop simZero "server.exe" ⟨none, []⟩
      = Outcome.panicked "Failed to find process with executable name: server.exe" := by
  decide

/-- C3 amended: when `stop()` takes the fallback discovery path and no
running process clears the 0.75 threshold, the whole process aborts via
`panic!` in `ServerProcess::send_interrupt` (as §9 of the specification
notes of the reference behavior); no typed error is returned. -/
theorem c3_amended_fallback_panics :
    ∀ (sim : String → String → ℚ) (command fname : String) (s : SysState)
      (e : InstanceError),
      Instance.pid s = Except.error e →
      path_file_name command = some fname →
      find_processes sim s.procs fname = [] →
      Instance.stop sim command s
        = Outcome.panicked ("Failed to find process with executable name: " ++ fname) := by
  intro sim cmd fname s e hpid hfn hempty
  have hstop : Instance.stop sim cmd s = Instance.stopFallback sim cmd s.procs := by
    unfold Instance.stop
    rw [hpid]
  rw [hstop]
  unfold Instance.stopFallback
  rw [hfn]
  simp [blocking_shutdown, send_interrupt, hempty]

/-- C3 amended witness: a populated process table whose only entry scores
zero against the target basename still ends in a panic. -/
theorem c3_amended_witness :
    Instance.stop simZero "game_server" ⟨none, [⟨5, "completely-different"⟩]⟩
      = Outcome.panicked ("Failed to find process with executable name: " ++ "game_server") :=
  c3_amended_fallback_panics simZero "game_server" "game_server"
    ⟨none, [⟨5, "completely-different"⟩]⟩ (InstanceError.Unknown "Failed to find pid")
    rfl rfl (by decide)

/-- C4 counterexample: a PID record whose contents do not parse (`"abc"`)
does not make `stop()` return a typed parse error — `stop()` matches
`Err(_)` and silently proceeds by fallback fuzzy discovery (here
interrupting pid 42), even though `Instance::pid` did produce the typed
`ParseError`. -/
theorem c4_counterexample_parse_failure_falls_back :
    Instance.stop simOne "server.exe" ⟨some "abc", [⟨42, "srv"⟩]⟩
      = Outcome.ok ([42], false)
    ∧ Instance.pid ⟨some "abc", [⟨42, "srv"⟩]⟩ = Except.error InstanceError.ParseError := by
  exact ⟨by decide, rfl⟩

/-- C4 amended: when the PID record contents do not parse as an integer,
`Instance::pid` returns a typed `ParseError` but `stop()` discards it and
proceeds by the fallback discovery mechanism; when the record holds a
positive integer naming a live process, `stop()` sends exactly one interrupt
to that pid and deletes the record. -/
theorem c4_amended_stop_pid_semantics :
    (∀ (sim : String → String → ℚ) (command : String) (s : SysState) (str : String),
       s.pidFileContents = some str →
       parse_i32 (strTrim str) = none →
       Instance.pid s = Except.error InstanceError.ParseError
         ∧ Instance.stop sim command s = Instance.stopFallback sim command s.procs)
    ∧ (∀ (sim : String → String → ℚ) (command : String) (s : SysState)
         (str : String) (n : Int),
       s.pidFileContents = some str →
       parse_i32 (strTrim str) = some n →
       0 < n →
       (∃ p ∈ s.procs, p.pid = n) →
       Instance.stop sim command s = Outcome.ok ([n], true)) := by
  constructor
  · intro sim cmd s str hc hparse
    obtain ⟨pc, procs⟩ := s
    cases hc
    have hpid : Instance.pid ⟨some str, procs⟩ = Except.error InstanceError.ParseError := by
      simp [Instance.pid, hparse]
    refine ⟨hpid, ?_⟩
    unfold Instance.stop
    rw [hpid]
  · intro sim cmd s str n hc hparse hpos hlive
    obtain ⟨pc, procs⟩ := s
    cases hc
    have hpid : Instance.pid ⟨some str, procs⟩ = Except.ok n := by
      simp [Instance.pid, hparse]
    unfold Instance.stop
    rw [hpid]
    have hany : (procs.any fun p => p.pid == n) = true := by
      rw [List.any_eq_true]
      obtain ⟨p, hp, hpn⟩ := hlive
      exact ⟨p, hp, by rw [beq_iff_eq]; exact hpn⟩
    simp [hany]

/-- C4 amended witness: the unparseable record `"abc"` falls back, and the
record `" 42 "` leads to one interrupt of pid 42 plus record deletion. -/
theorem c4_amended_witness :
    (Instance.pid ⟨some "abc", [⟨42, "srv"⟩]⟩ = Except.error InstanceError.ParseError
      ∧ Instance.stop simOne "server.exe" ⟨some "abc", [⟨42, "srv"⟩]⟩
          = Instance.stopFallback simOne "server.exe" [⟨42, "srv"⟩])
    ∧ Instance.stop simOne "server.exe" ⟨some " 42 ", [⟨42, "srv"⟩]⟩
        = Outcome.ok ([42], true) :=
  ⟨c4_amended_stop_pid_semantics.1 simOne "server.exe" ⟨some "abc", [⟨42, "srv"⟩]⟩ "abc"
      rfl (by decide),
   c4_amended_stop_pid_semantics.2 simOne "server.exe" ⟨some " 42 ", [⟨42, "srv"⟩]⟩ " 42 " 42
      rfl (by decide) (by decide) ⟨⟨42, "srv"⟩, List.mem_cons_self _ _, rfl⟩⟩

end StopTheorems

section LauncherTheorems

/-- C6 counterexample: with no launcher binary on the PATH and two
`Proton*` candidates on disk, the resolver returns the alphabetically first
glob match (`GE-Proton8`), not the lexicographically greatest name
(`GE-Proton9`). -/
theorem c6_counterexample_picks_alphabetically_first :
    find_windows_compatibility envTwoProtons = WindowsCompat.Proton protonLess
    ∧ protonLess < protonGreater
    ∧ envTwoProtons.isFile protonGreater = true := by
  refine ⟨by decide, ?_, by decide⟩
  rw [String.lt_iff_toList_lt]
  decide

/-- C6 amended: with no launcher binary on the PATH, the resolver returns
the first file yielded by the first glob pattern with any match; since the
glob crate yields matches in alphabetical order, with all candidates under
the first pattern this is the lexicographically least candidate. -/
theorem c6_amended_first_glob_match :
    ∀ (e : Env) (p : String) (rest : List String),
      find_umu_launcher e = none →
      e.globResults "/home/steam/.steam/root/compatibilitytools.d/*Proton*/proton"
        = p :: rest →
      e.isFile p = true →
      List.Sorted (· ≤ ·) (p :: rest) →
      find_windows_compatibility e = WindowsCompat.Proton p
        ∧ ∀ q ∈ p :: rest, p ≤ q := by
  intro e p rest humu hglob hfile hsort
  constructor
  · unfold find_windows_compatibility
    rw [humu]
    have hfp : find_proton e = Except.ok p := by
      unfold find_proton glob_patterns
      rw [List.findSome?_cons, hglob, List.find?_cons_of_pos _ hfile]
    rw [hfp]
  · intro q hq
    rcases List.mem_cons.mp hq with h | h
    · exact h ▸ le_refl p
    · exact List.rel_of_sorted_cons hsort q h

/-- C6 amended witness: the two-Proton environment yields the least path. -/
theorem c6_amended_witness :
    find_windows_compatibility envTwoProtons = WindowsCompat.Proton protonLess
    ∧ ∀ q ∈ protonLess :: [protonGreater], protonLess ≤ q :=
  c6_amended_first_glob_match envTwoProtons protonLess [protonGreater]
    rfl rfl (by decide)
    (List.sorted_cons.mpr
      ⟨fun b hb => by
        rw [List.mem_singleton.mp hb, String.le_iff_toList_le]
        decide,
       List.sorted_singleton protonGreater⟩)

end LauncherTheorems

section RuleEngineTheorems

/-- Sanity check: the constructor-form threshold is the rational 3/4 = 0.75. -/
theorem confidenceThreshold_eq_three_quarters : confidenceThreshold = 3 / 4 := by
  unfold confidenceThreshold
  rw [Rat.mk'_eq_divInt, Rat.divInt_eq_div]
  norm_num

/-- C2: on a rule set `[A, B, C]` listed in ascending ranking order with
`A.stop = false`, `B.stop = true`, and all three matchers accepting the
line, evaluation invokes A's and B's actions (in that order) and never
C's: evaluation is by ascending ranking, every matching rule's action runs,
and the first matching stop-rule terminates the scan after its own action. -/
theorem c2_ranked_short_circuit :
    ∀ (line : String) (a b c : LogRule),
      a.ranking < b.ranking → b.ranking < c.ranking →
      a.stop = false → b.stop = true →
      a.matcher line = true → b.matcher line = true → c.matcher line = true →
      Monitor.process_rules [a, b, c] line = [a, b]
        ∧ c ∉ Monitor.process_rules [a, b, c] line := by
  intro line a b c hab hbc hsa hsb hma hmb hmc
  have hsorted : List.Sorted LogRules.ruleLE [a, b, c] := by
    refine List.sorted_cons.mpr ⟨?_, List.sorted_cons.mpr ⟨?_, List.sorted_singleton c⟩⟩
    · intro x hx
      rcases List.mem_cons.mp hx with rfl | hx
      · exact le_of_lt hab
      · rw [List.mem_singleton.mp hx]
        exact le_of_lt (hab.trans hbc)
    · intro x hx
      rw [List.mem_singleton.mp hx]
      exact le_of_lt hbc
  have hget : LogRules.get_rules [a, b, c] = [a, b, c] := by
    unfold LogRules.get_rules
    exact hsorted.insertionSort_eq
  have hmain : Monitor.process_rules [a, b, c] line = [a, b] := by
    unfold Monitor.process_rules
    rw [hget]
    simp [List.filter_cons, hma, hmb, hmc, scanUntilStop, hsa, hsb]
  refine ⟨hmain, ?_⟩
  rw [hmain]
  intro hmem
  rcases List.mem_cons.mp hmem with h | h
  · have hlt := hab.trans hbc
    rw [h] at hlt
    exact lt_irrefl _ hlt
  · have hlt := hbc
    rw [List.mem_singleton.mp h] at hlt
    exact lt_irrefl _ hlt

/-- C2 witness: three concrete always-matching rules ranked 1 < 2 < 3. -/
theorem c2_ranked_short_circuit_witness :
    Monitor.process_rules [ruleA, ruleB, ruleC] "SERVER STARTED" = [ruleA, ruleB]
    ∧ ruleC ∉ Monitor.process_rules [ruleA, ruleB, ruleC] "SERVER STARTED" :=
  c2_ranked_short_circuit "SERVER STARTED" ruleA ruleB ruleC
    (by decide) (by decide) rfl rfl rfl rfl rfl

/-- Membership in `find_processes`: a process is kept iff its lowercased
name scores strictly above the threshold against the lowercased target. -/
theorem mem_find_processes {sim : String → String → ℚ} {procs : List Proc}
    {name : String} {q : Proc} :
    q ∈ find_processes sim procs name ↔
      q ∈ procs ∧ confidenceThreshold < sim (toLowerStr name) (toLowerStr q.name) := by
  unfold find_processes
  simp only [List.mem_map, List.mem_insertionSort, List.mem_filter]
  constructor
  · rintro ⟨x, ⟨⟨p, hp, rfl⟩, hthr⟩, rfl⟩
    refine ⟨hp, ?_⟩
    simpa using hthr
  · rintro ⟨hq, hthr⟩
    exact ⟨(q, sim (toLowerStr name) (toLowerStr q.name)), ⟨⟨q, hq, rfl⟩, by simpa using hthr⟩, rfl⟩

/-- C7: on the fallback path (failed PID lookup), `stop()` interrupts
exactly the processes whose (lowercased) name scores strictly above 0.75
against the (lowercased) target basename — every process above the
threshold, none at or below it. -/
theorem c7_threshold_interrupts :
    ∀ (sim : String → String → ℚ) (command fname : String) (s : SysState)
      (e : InstanceError),
      Instance.pid s = Except.error e →
      path_file_name command = some fname →
      find_processes sim s.procs fname ≠ [] →
      (s.procs.map Proc.pid).Nodup →
      Instance.stop sim command s
          = Outcome.ok ((find_processes sim s.procs fname).map Proc.pid, false)
        ∧ ∀ p ∈ s.procs,
            (p.pid ∈ (find_processes sim s.procs fname).map Proc.pid ↔
              confidenceThreshold < sim (toLowerStr fname) (toLowerStr p.name)) := by
  intro sim cmd fname s e hpid hfn hne hnodup
  constructor
  · have hstop : Instance.stop sim cmd s = Instance.stopFallback sim cmd s.procs := by
      unfold Instance.stop
      rw [hpid]
    rw [hstop]
    unfold Instance.stopFallback
    rw [hfn]
    unfold blocking_shutdown send_interrupt
    have hemp : ¬ ((find_processes sim s.procs fname).isEmpty = true) := by
      rw [List.isEmpty_iff]
      exact hne
    simp only [if_neg hemp]
  · intro p hp
    constructor
    · intro hmem
      obtain ⟨q, hq, hqp⟩ := List.mem_map.mp hmem
      have hq2 := mem_find_processes.mp hq
      have hqeq : q = p := List.inj_on_of_nodup_map hnodup hq2.1 hp hqp
      exact hqeq ▸ hq2.2
    · intro hthr
      exact List.mem_map.mpr ⟨p, mem_find_processes.mpr ⟨hp, hthr⟩, rfl⟩

/-- C7 witness: with processes `alpha` (score 1) and `beta` (score 0), only
`alpha` (pid 1) is interrupted. -/
theorem c7_threshold_interrupts_witness :
    Instance.stop simAlpha "alpha.x" ⟨none, procsAlpha⟩
        = Outcome.ok ((find_processes simAlpha procsAlpha "alpha.x").map Proc.pid, false)
    ∧ ∀ p ∈ procsAlpha,
        (p.pid ∈ (find_processes simAlpha procsAlpha "alpha.x").map Proc.pid ↔
          confidenceThreshold < simAlpha (toLowerStr "alpha.x") (toLowerStr p.name)) :=
  c7_threshold_interrupts simAlpha "alpha.x" "alpha.x" ⟨none, procsAlpha⟩
    (InstanceError.Unknown "Failed to find pid") rfl rfl (by decide) (by decide)

end RuleEngineTheorems

section RankingTheorems

/-- Closed form of the registration fold, generalized over the accumulator:
each request appends one rule whose index is its registration position. -/
theorem registerAll_go (reqs : List RuleReq) (acc : List LogRule) :
    List.foldl (fun rules req =>
        LogRules.add_rule rules req.matcher req.actionId req.stop req.ranking) acc reqs
      = acc ++ (List.enumFrom acc.length reqs).map fun x => mkRule x.2 x.1 := by
  induction reqs generalizing acc with
  | nil => simp
  | cons req reqs ih =>
    rw [List.foldl_cons, ih, List.enumFrom_cons]
    have hlen : (LogRules.add_rule acc req.matcher req.actionId req.stop req.ranking).length
        = acc.length + 1 := by
      simp [LogRules.add_rule]
    rw [hlen]
    simp [LogRules.add_rule, mkRule]

/-- `registerAll` in closed form. -/
theorem registerAll_eq (reqs : List RuleReq) :
    registerAll reqs = (List.enumFrom 0 reqs).map fun x => mkRule x.2 x.1 := by
  unfold registerAll
  simpa using registerAll_go reqs []

/-- Registration preserves length. -/
theorem registerAll_length (reqs : List RuleReq) :
    (registerAll reqs).length = reqs.length := by
  rw [registerAll_eq]
  simp

/-- The rule at position `i` is the `i`-th request instantiated at index `i`. -/
theorem registerAll_getElem (reqs : List RuleReq) (i : Nat) (h : i < reqs.length)
    (h2 : i < (registerAll reqs).length) :
    (registerAll reqs)[i] = mkRule reqs[i] i := by
  simp only [registerAll_eq, List.getElem_map, List.getElem_enumFrom, Nat.zero_add]

/-- Indices in an `enumFrom` are strictly increasing. -/
theorem pairwise_fst_lt_enumFrom {α : Type} (l : List α) (n : Nat) :
    List.Pairwise (fun x y : Nat × α => x.1 < y.1) (List.enumFrom n l) := by
  induction l generalizing n with
  | nil => simp
  | cons a l ih =>
    rw [List.enumFrom_cons]
    refine List.Pairwise.cons ?_ (ih (n + 1))
    rintro ⟨j, y⟩ hy
    have hj := (List.mem_enumFrom hy).1
    simp only []
    omega

/-- A list sorted by ranking is its negatively-ranked prefix followed by its
nonnegatively-ranked suffix. -/
theorem sorted_split_neg_nonneg :
    ∀ (l : List LogRule), List.Sorted LogRules.ruleLE l →
      l = l.filter (fun r => decide (r.ranking < 0))
        ++ l.filter (fun r => decide (0 ≤ r.ranking)) := by
  intro l hl
  induction l with
  | nil => simp
  | cons a l ih =>
    rw [List.sorted_cons] at hl
    obtain ⟨hall, hsl⟩ := hl
    by_cases ha : a.ranking < 0
    · have h1 : (decide (a.ranking < 0)) = true := decide_eq_true ha
      have h2 : (decide (0 ≤ a.ranking)) = false := decide_eq_false (by omega)
      rw [List.filter_cons, List.filter_cons, h1, h2]
      simp only [if_true, if_false, List.cons_append]
      exact congrArg (List.cons a) (ih hsl)
    · have ha' : 0 ≤ a.ranking := by omega
      have h1 : (decide (a.ranking < 0)) = false := decide_eq_false ha
      have h2 : (decide (0 ≤ a.ranking)) = true := decide_eq_true ha'
      have hnil : l.filter (fun r => decide (r.ranking < 0)) = [] := by
        rw [List.filter_eq_nil_iff]
        intro b hb
        have hle : a.ranking ≤ b.ranking := hall b hb
        simp only [decide_eq_true_eq]
        omega
      have hself : l.filter (fun r => decide (0 ≤ r.ranking)) = l := by
        rw [List.filter_eq_self]
        intro b hb
        have hle : a.ranking ≤ b.ranking := hall b hb
        simp only [decide_eq_true_eq]
        omega
      rw [List.filter_cons, List.filter_cons, h1, h2]
      simp only [if_false, if_true]
      rw [hnil, hself]
      simp

/-- C10: with fewer than 99999 registrations and explicit rankings confined
to the documented 0–99999 range: a rule registered without a ranking at
position `i` receives ranking `i - 99999`, which is negative; rules with
explicit rankings keep them (nonnegative); in the sorted snapshot returned
by `get_rules`, the implicitly-ranked rules — exactly the negatively-ranked
ones — appear first, in their registration order, before every
explicitly-ranked rule (including the catch-all rule at 99999). -/
theorem c10_implicit_rules_rank_first :
    ∀ (reqs : List RuleReq),
      reqs.length ≤ 99999 →
      (∀ req ∈ reqs, ∀ rk, req.ranking = some rk → 0 ≤ rk ∧ rk ≤ 99999) →
      (∀ (i : Nat) (h : i < reqs.length) (h2 : i < (registerAll reqs).length),
        (reqs[i].ranking = none →
          (registerAll reqs)[i].ranking = (i : Int) - 99999
            ∧ (registerAll reqs)[i].ranking < 0)
        ∧ ∀ rk : Int, reqs[i].ranking = some rk →
            (registerAll reqs)[i].ranking = rk ∧ 0 ≤ (registerAll reqs)[i].ranking)
      ∧ (LogRules.get_rules (registerAll reqs)).filter (fun r => decide (r.ranking < 0))
          = (registerAll reqs).filter (fun r => decide (r.ranking < 0))
      ∧ LogRules.get_rules (registerAll reqs)
          = (registerAll reqs).filter (fun r => decide (r.ranking < 0))
            ++ (LogRules.get_rules (registerAll reqs)).filter
                (fun r => decide (0 ≤ r.ranking)) := by
  intro reqs hlen hexp
  have hA : ∀ (i : Nat) (h : i < reqs.length) (h2 : i < (registerAll reqs).length),
      (reqs[i].ranking = none →
        (registerAll reqs)[i].ranking = (i : Int) - 99999
          ∧ (registerAll reqs)[i].ranking < 0)
      ∧ ∀ rk : Int, reqs[i].ranking = some rk →
          (registerAll reqs)[i].ranking = rk ∧ 0 ≤ (registerAll reqs)[i].ranking := by
    intro i h h2
    have hg := registerAll_getElem reqs i h h2
    constructor
    · intro hnone
      have hrank : (mkRule reqs[i] i).ranking = (i : Int) - 99999 := by
        simp [mkRule, hnone, default_ranking, DEFAULT_STOP_INT]
      rw [hg, hrank]
      exact ⟨rfl, by omega⟩
    · intro rk hrk
      have hrank : (mkRule reqs[i] i).ranking = rk := by
        simp [mkRule, hrk]
      rw [hg, hrank]
      have hb := hexp reqs[i] (List.getElem_mem h) rk hrk
      exact ⟨rfl, hb.1⟩
  have hformula : ∀ x ∈ List.enumFrom 0 reqs,
      decide ((mkRule x.2 x.1).ranking < 0) = true →
      (mkRule x.2 x.1).ranking = (x.1 : Int) - 99999 := by
    rintro ⟨i, req⟩ hx hneg
    simp only [decide_eq_true_eq] at hneg
    cases hopt : req.ranking with
    | none =>
      simp [mkRule, hopt, default_ranking, DEFAULT_STOP_INT]
    | some rk =>
      exfalso
      obtain ⟨hle, hlt, heq⟩ := List.mem_enumFrom hx
      have hmem : req ∈ reqs := by
        rw [heq]
        exact List.getElem_mem _
      have hb := hexp req hmem rk hopt
      simp only [mkRule, hopt, Option.getD_some] at hneg
      omega
  have hpair : List.Pairwise LogRules.ruleLE
      ((registerAll reqs).filter fun r => decide (r.ranking < 0)) := by
    rw [registerAll_eq, List.filter_map, List.pairwise_map]
    refine List.Pairwise.imp_of_mem ?_
      ((pairwise_fst_lt_enumFrom reqs 0).filter
        ((fun r => decide (r.ranking < 0)) ∘ fun x => mkRule x.2 x.1))
    intro x y hx hy hxy
    have hxm := List.mem_filter.mp hx
    have hym := List.mem_filter.mp hy
    have hfx := hformula x hxm.1 (by simpa [Function.comp] using hxm.2)
    have hfy := hformula y hym.1 (by simpa [Function.comp] using hym.2)
    show (mkRule x.2 x.1).ranking ≤ (mkRule y.2 y.1).ranking
    rw [hfx, hfy]
    omega
  have hsub : ((registerAll reqs).filter fun r => decide (r.ranking < 0)).Sublist
      (LogRules.get_rules (registerAll reqs)) := by
    unfold LogRules.get_rules
    exact List.sublist_insertionSort hpair (List.filter_sublist _)
  have hall_neg : ∀ r ∈ (registerAll reqs).filter (fun r => decide (r.ranking < 0)),
      decide (r.ranking < 0) = true := by
    intro r hr
    have := List.mem_filter.mp hr
    exact this.2
  have hsub2 : ((registerAll reqs).filter fun r => decide (r.ranking < 0)).Sublist
      ((LogRules.get_rules (registerAll reqs)).filter fun r => decide (r.ranking < 0)) := by
    have hstep := hsub.filter (fun r => decide (r.ranking < 0))
    rwa [List.filter_eq_self.mpr hall_neg] at hstep
  have hperm : ((LogRules.get_rules (registerAll reqs)).filter
        fun r => decide (r.ranking < 0)).Perm
      ((registerAll reqs).filter fun r => decide (r.ranking < 0)) := by
    unfold LogRules.get_rules
    exact (List.perm_insertionSort _ _).filter _
  have hBeq : (LogRules.get_rules (registerAll reqs)).filter (fun r => decide (r.ranking < 0))
      = (registerAll reqs).filter (fun r => decide (r.ranking < 0)) :=
    (hsub2.eq_of_length hperm.length_eq.symm).symm
  have hsorted : List.Sorted LogRules.ruleLE (LogRules.get_rules (registerAll reqs)) := by
    unfold LogRules.get_rules
    exact List.sorted_insertionSort _ _
  have hsplit := sorted_split_neg_nonneg (LogRules.get_rules (registerAll reqs)) hsorted
  rw [hBeq] at hsplit
  exact ⟨hA, hBeq, hsplit⟩

end RankingTheorems

section RankingWitness

/-- C10 witness: two implicit registrations followed by the explicit
catch-all at 99999. -/
theorem c10_implicit_rules_rank_first_witness :
    (∀ (i : Nat) (h : i < reqsW.length) (h2 : i < (registerAll reqsW).length),
      (reqsW[i].ranking = none →
        (registerAll reqsW)[i].ranking = (i : Int) - 99999
          ∧ (registerAll reqsW)[i].ranking < 0)
      ∧ ∀ rk : Int, reqsW[i].ranking = some rk →
          (registerAll reqsW)[i].ranking = rk ∧ 0 ≤ (registerAll reqsW)[i].ranking)
    ∧ (LogRules.get_rules (registerAll reqsW)).filter (fun r => decide (r.ranking < 0))
        = (registerAll reqsW).filter (fun r => decide (r.ranking < 0))
    ∧ LogRules.get_rules (registerAll reqsW)
        = (registerAll reqsW).filter (fun r => decide (r.ranking < 0))
          ++ (LogRules.get_rules (registerAll reqsW)).filter
              (fun r => decide (0 ≤ r.ranking)) :=
  c10_implicit_rules_rank_first reqsW (by norm_num [reqsW])
    (by
      intro req hreq rk hrk
      fin_cases hreq <;> simp_all <;> omega)

end RankingWitness
